import Mathlib

/-!
# helloworld: a shallow embedding of `helloworld/main.go`

The service has two handlers of its own (`helloHandler`, `healthHandler`) and
a `main` that builds the `http.Server`.  A handler is embedded as the sequence
of Go statements it executes; every call the handler makes on one of its
collaborators (metrics instruments, tracer, logger, response writer, timer) is
an `Event`, and `exec` gives Go's `defer` semantics to a statement list.

The body of `helloHandler` is written in the state monad `Body`, one line per
source statement: it records the statements executed and, in the same program
order, what the body does with the clock (`time.Now`, `time.Since`, `time.Sleep`).

Inputs the handler does not control are gathered in `Env`: the two draws from
`math/rand`, the trace identifier chosen by the tracer and the successive readings
of the monotonic clock.  An execution may also be cut short by a panic inside one
of its calls (`fault`), after which only the deferred calls run.

Handlers run concurrently, one goroutine per request; `schedule` interleaves the
calls of several executions, each call being atomic on the instruments.

Numbers:
* `int`, `int64` and `time.Duration` are `Int` with explicit wrap-around
  (`wrapInt64`) or saturation (`satInt64`) where Go has it;
* a `float64` is represented by the rational number it denotes, and
  `roundFloat64` is IEEE-754 round-to-nearest-even onto the binary64 grid.
-/

namespace Helloworld

/-! ## Machine integers and `time.Duration` -/

/-- Two's-complement wrap-around of a mathematical integer into `int64`. -/
def wrapInt64 (x : Int) : Int := (x + 9223372036854775808) % 18446744073709551616 - 9223372036854775808

/-- Saturation into `int64`, as `time.Time.Sub` does on overflow. -/
def satInt64 (x : Int) : Int :=
  if x < -9223372036854775808 then -9223372036854775808
  else if 9223372036854775807 < x then 9223372036854775807
  else x

/-- Constant `time.Millisecond`, in nanoseconds. -/
def Millisecond : Int := 1000000

/-- Constant `time.Second`, in nanoseconds. -/
def Second : Int := 1000000000

/-- Method `Duration.Milliseconds`: `int64(d) / 1e6`, Go's truncating division. -/
def durationMilliseconds (d : Int) : Int := Int.tdiv d 1000000

/-- Function `time.Since(start)` when the clock reads `now`: `now.Sub(start)`, saturating. -/
def timeSince (start now : Int) : Int := satInt64 (now - start)

/-! ## `float64` -/

/-- Round a rational to the nearest integer, ties to the even one. -/
def roundHalfEven (q : ℚ) : ℤ :=
  if Int.fract q < 1 / 2 then ⌊q⌋
  else if 1 / 2 < Int.fract q then ⌊q⌋ + 1
  else if ⌊q⌋ % 2 = 0 then ⌊q⌋ else ⌊q⌋ + 1

/-- Exponent of the unit in the last place of the binary64 numbers around `q`:
53 significant bits, subnormals below `2 ^ (-1022)`. -/
def ulpExp (q : ℚ) : ℤ := max (Int.log 2 |q| - 52) (-1074)

/-- IEEE-754 binary64 rounding (round to nearest, ties to even) of a rational
of magnitude below `2 ^ 1024`. -/
def roundFloat64 (q : ℚ) : ℚ := (roundHalfEven (q / (2 : ℚ) ^ ulpExp q) : ℚ) * (2 : ℚ) ^ ulpExp q

/-- Nonnegative finite binary64 values: `m * 2 ^ e` with a 53-bit `m`. -/
def IsFloat64 (q : ℚ) : Prop :=
  ∃ (m : ℕ) (e : ℤ), m < 2 ^ 53 ∧ -1074 ≤ e ∧ e ≤ 971 ∧ q = (m : ℚ) * (2 : ℚ) ^ e

/-- Conversion `float64(i)` of an integer. -/
def float64OfInt (i : Int) : ℚ := roundFloat64 (i : ℚ)

/-- Method `Duration.Seconds`: `float64(d / Second) + float64(d % Second) / 1e9`. -/
def durationSeconds (d : Int) : ℚ :=
  roundFloat64 (float64OfInt (Int.tdiv d Second)
    + roundFloat64 (float64OfInt (Int.tmod d Second) / roundFloat64 1000000000))

/-- The untyped constant `0.05` converted to `float64` by the compiler: the bit
pattern `0x3FA999999999999A`, that is `7205759403792794 * 2 ^ (-57)`. -/
def float64_0_05 : ℚ := 7205759403792794 / 144115188075855872

/-! ## Requests, collaborators and events -/

/-- Go type `url.Values`: a map from key to the list of its values. -/
abbrev Values := List (String × List String)

/-- Method `Values.Get`: the first value of the key, `""` when there is none. -/
def Values.Get (v : Values) (key : String) : String :=
  match v.lookup key with
  | some (x :: _) => x
  | _ => ""

/-- The parts of `*http.Request` the handlers read. -/
structure Request where
  /-- Field `r.Method`. -/
  Method : String
  /-- Field `r.URL.Path`. -/
  Path : String
  /-- Result of `r.URL.String()`. -/
  URL : String
  /-- Result of `r.URL.Query()`. -/
  Query : Values
  deriving DecidableEq, Repr

/-- What the handler receives from outside during one execution. -/
structure Env where
  /-- Result of `rand.Intn(200)`. -/
  intn : Int
  /-- Result of `rand.Float64()`. -/
  float64 : ℚ
  /-- Result of `span.SpanContext().TraceID().String()`. -/
  traceID : String
  /-- First reading of the monotonic clock in the execution: `time.Now()` on entry. -/
  start : Int
  /-- Second reading of the clock: the first `time.Since(start)`. -/
  now1 : Int
  /-- Third reading of the clock: the second `time.Since(start)`. -/
  now2 : Int
  deriving DecidableEq

/-- The reading the monotonic clock gives when the execution reads it for the
`n`-th time (counting from zero). -/
def Env.reading (env : Env) : Nat → Int
  | 0 => env.start
  | 1 => env.now1
  | _ => env.now2

/-- Values of `attribute.KeyValue`. -/
inductive AttrValue where
  | string (s : String)
  | int64 (i : Int)
  | bool (b : Bool)
  deriving DecidableEq, Repr

/-- Values of the key/value arguments given to `slog`. -/
inductive LogValue where
  | string (s : String)
  | int64 (i : Int)
  deriving DecidableEq, Repr

/-- Levels of `slog` used by the program. -/
inductive Level where
  | info
  | error
  deriving DecidableEq, Repr

/-- One call on a collaborator of the handler. -/
inductive Event where
  /-- Call `inFlightRequests.Inc()`. -/
  | gaugeInc
  /-- Call `inFlightRequests.Dec()`. -/
  | gaugeDec
  /-- Call `tracer.Start(ctx, name)`; `parent` is the span carried by `ctx`. -/
  | spanStart (name : String) (parent : Option String)
  /-- Call `SetAttributes` on the span of that name. -/
  | spanSetAttributes (span : String) (kv : List (String × AttrValue))
  /-- Call `End` on the span of that name. -/
  | spanEnd (span : String)
  /-- Call `time.Sleep(d)`. -/
  | sleep (d : Int)
  /-- Call `slog.InfoContext` or `slog.ErrorContext`. -/
  | log (level : Level) (msg : String) (args : List (String × LogValue))
  /-- Call `w.Header().Set(key, value)`. -/
  | headerSet (key value : String)
  /-- Call `w.WriteHeader(status)`. -/
  | writeHeader (status : Int)
  /-- Write of bytes to the response writer. -/
  | write (body : String)
  /-- Call `requestsTotal.WithLabelValues(method, path, status).Inc()`. -/
  | counterInc (method path status : String)
  /-- Call `requestDuration.WithLabelValues(method, path).Observe(seconds)`. -/
  | histObserve (method path : String) (seconds : ℚ)
  deriving DecidableEq

/-! ## Statements and `defer` -/

/-- A statement of a straight-line Go function body. -/
inductive Stmt where
  /-- A call executed now. -/
  | call (e : Event)
  /-- Statement `defer`: the call is pushed on the stack of deferred calls. -/
  | defer (e : Event)
  deriving DecidableEq

/-- Execute a function body.  `fault = none` is a normal return; `fault = some k`
is a panic raised inside the call reached after `k` calls have completed (a body
with no such call returns normally).  Either way the deferred calls then run,
last registered first.  The result is the sequence of calls that took effect. -/
def exec : Option Nat → List Event → List Stmt → List Event
  | _, deferred, [] => deferred
  | fault, deferred, Stmt.defer e :: rest => exec fault (e :: deferred) rest
  | some 0, deferred, Stmt.call _ :: _ => deferred
  | some (k + 1), deferred, Stmt.call e :: rest => e :: exec (some k) deferred rest
  | none, deferred, Stmt.call e :: rest => e :: exec none deferred rest

/-- What a function body does with the clock, in program order. -/
inductive ClockAction where
  /-- The clock is read (`time.Now`, `time.Since`) and gives `t`. -/
  | read (t : Int)
  /-- Call `time.Sleep(d)`. -/
  | sleep (d : Int)
  deriving DecidableEq, Repr

/-- What a function body has done so far. -/
structure BodyState where
  /-- The statements executed, in program order. -/
  stmts : List Stmt
  /-- The clock readings taken and the sleeps made, in program order. -/
  clock : List ClockAction
  /-- The number of clock readings taken. -/
  reads : Nat

/-- A function body: it executes statements one after the other. -/
abbrev Body := StateM BodyState

/-- A call statement. -/
def call (e : Event) : Body Unit :=
  modify fun s => { s with stmts := s.stmts ++ [Stmt.call e] }

/-- A `defer` statement. -/
def deferCall (e : Event) : Body Unit :=
  modify fun s => { s with stmts := s.stmts ++ [Stmt.defer e] }

/-- Function `time.Now()`: the next reading of the clock. -/
def timeNow (env : Env) : Body Int := do
  let s ← get
  let t := env.reading s.reads
  set { s with clock := s.clock ++ [ClockAction.read t], reads := s.reads + 1 }
  pure t

/-- Function `time.Sleep(d)`: a call, and an action on the clock. -/
def timeSleep (d : Int) : Body Unit :=
  modify fun s => { s with stmts := s.stmts ++ [Stmt.call (Event.sleep d)],
                           clock := s.clock ++ [ClockAction.sleep d] }

/-- Function `time.Since(start)`: `time.Now().Sub(start)`, saturating. -/
def timeSinceNow (env : Env) (start : Int) : Body Int := do
  let now ← timeNow env
  pure (timeSince start now)

/-- The state in which a function body starts. -/
def BodyState.init : BodyState := ⟨[], [], 0⟩

/-- Whether the readings are those of a monotonic clock on which a sleep of `d`
takes at least `d`: walking the actions in program order, `low` is what the clock
is known to have reached (nothing, before the first reading), and each reading
must be at least that. -/
def clockSound : Option Int → List ClockAction → Bool
  | _, [] => true
  | none, ClockAction.read t :: rest => clockSound (some t) rest
  | some low, ClockAction.read t :: rest => decide (low ≤ t) && clockSound (some t) rest
  | none, ClockAction.sleep _ :: rest => clockSound none rest
  | some low, ClockAction.sleep d :: rest => clockSound (some (low + max d 0)) rest

/-! ## The handlers -/

/-- Result of `fmt.Sprintf("%d", n)` for an integer. -/
def sprintfD (n : Int) : String := toString n

/-- Constant `http.StatusOK`. -/
def StatusOK : Int := 200

/-- Constant `http.StatusInternalServerError`. -/
def StatusInternalServerError : Int := 500

/-- The local `workDuration`: `time.Duration(50+rand.Intn(200)) * time.Millisecond`. -/
def workDuration (env : Env) : Int := wrapInt64 (wrapInt64 (50 + env.intn) * Millisecond)

/-- The local `name`: the query parameter, `"World"` when it is empty. -/
def requestName (r : Request) : String :=
  let name := r.Query.Get "name"
  if name = "" then "World" else name

/-- The condition `rand.Float64() < 0.05` of the simulated error. -/
def simulatedError (env : Env) : Bool := decide (env.float64 < float64_0_05)

/-- The local `status` when the response is written. -/
def helloStatus (env : Env) : Int :=
  if simulatedError env then StatusInternalServerError else StatusOK

/-- The local `message` when the response is written. -/
def helloMessage (r : Request) (env : Env) : String :=
  if simulatedError env then "Something went wrong!" else "Hello, " ++ requestName r ++ "!"

/-- The body of `helloHandler`, statement by statement. -/
def helloBody (r : Request) (env : Env) : Body Unit := do
  let start ← timeNow env
  call Event.gaugeInc
  deferCall Event.gaugeDec
  call (Event.spanStart "hello-handler" none)
  deferCall (Event.spanEnd "hello-handler")
  call (Event.spanStart "process-request" (some "hello-handler"))
  timeSleep (workDuration env)
  call (Event.spanSetAttributes "process-request"
    [("work.duration_ms", AttrValue.int64 (durationMilliseconds (workDuration env)))])
  call (Event.spanEnd "process-request")
  call (Event.spanSetAttributes "hello-handler"
    [("request.name", AttrValue.string (requestName r)),
     ("http.method", AttrValue.string r.Method),
     ("http.url", AttrValue.string r.URL)])
  let since1 ← timeSinceNow env start
  call (Event.log Level.info "request handled"
    [("method", LogValue.string r.Method),
     ("path", LogValue.string r.Path),
     ("name", LogValue.string (requestName r)),
     ("duration_ms", LogValue.int64 (durationMilliseconds since1)),
     ("trace_id", LogValue.string env.traceID)])
  if simulatedError env then
    call (Event.spanSetAttributes "hello-handler" [("error", AttrValue.bool true)])
    call (Event.log Level.error "simulated error" [("trace_id", LogValue.string env.traceID)])
  call (Event.headerSet "Content-Type" "text/plain")
  call (Event.writeHeader (helloStatus env))
  call (Event.write (helloMessage r env ++ "\n"))
  let since2 ← timeSinceNow env start
  call (Event.counterInc r.Method r.Path (sprintfD (helloStatus env)))
  call (Event.histObserve r.Method r.Path (durationSeconds since2))

/-- The statements `helloHandler` executes, in program order. -/
def helloStmts (r : Request) (env : Env) : List Stmt :=
  ((helloBody r env).run BodyState.init).2.stmts

/-- What `helloHandler` does with the clock, in program order. -/
def helloClock (r : Request) (env : Env) : List ClockAction :=
  ((helloBody r env).run BodyState.init).2.clock

/-- One execution of `helloHandler`: the calls that took effect, in order. -/
def helloHandler (r : Request) (env : Env) (fault : Option Nat) : List Event :=
  exec fault [] (helloStmts r env)

/-- The body of `healthHandler`. -/
def healthStmts (_r : Request) : List Stmt :=
  [ Stmt.call (Event.writeHeader StatusOK),
    Stmt.call (Event.write ("ok" ++ "\n")) ]

/-- One execution of `healthHandler`. -/
def healthHandler (r : Request) (fault : Option Nat) : List Event :=
  exec fault [] (healthStmts r)

/-! ## What the collaborators make of the calls -/

/-- State of an `http.ResponseWriter`. -/
structure Response where
  /-- Whether the status line has been written. -/
  wroteHeader : Bool
  /-- The status code written. -/
  status : Int
  /-- The header map. -/
  header : List (String × String)
  /-- The bytes of the body written so far. -/
  body : String
  deriving DecidableEq, Repr

/-- A fresh response writer. -/
def Response.init : Response := ⟨false, 0, [], ""⟩

/-- Effect of one call on the response writer: the first `WriteHeader` fixes the
status, a `Write` before any `WriteHeader` implies status 200, and the header map
is no longer sent once the status line is out. -/
def Response.step (w : Response) : Event → Response
  | Event.headerSet k v =>
      if w.wroteHeader then w else { w with header := (k, v) :: w.header.filter (fun h => h.1 ≠ k) }
  | Event.writeHeader s =>
      if w.wroteHeader then w else { w with wroteHeader := true, status := s }
  | Event.write b =>
      if w.wroteHeader then { w with body := w.body ++ b }
      else { w with wroteHeader := true, status := StatusOK, body := w.body ++ b }
  | _ => w

/-- The response a client receives from an execution. -/
def response (t : List Event) : Response := t.foldl Response.step Response.init

/-- Label values of a series of `requestsTotal`: method, path, status. -/
abbrev CounterLabels := String × String × String

/-- Method `WithLabelValues(...).Inc()` of a counter vector: the series of these
label values is created at zero when missing, then incremented. -/
def counterVecInc : List (CounterLabels × Nat) → CounterLabels → List (CounterLabels × Nat)
  | [], l => [(l, 1)]
  | (l', v) :: cs, l => if l' = l then (l', v + 1) :: cs else (l', v) :: counterVecInc cs l

/-- Value of one series of a counter vector, zero when the series does not exist. -/
def counterValue : List (CounterLabels × Nat) → CounterLabels → Nat
  | [], _ => 0
  | (l', v) :: cs, l => if l' = l then v else counterValue cs l

/-- Sum of the series of a counter vector with this method and path, over all
status label values. -/
def counterSum (cs : List (CounterLabels × Nat)) (method path : String) : Nat :=
  ((cs.filter (fun s => s.1.1 = method ∧ s.1.2.1 = path)).map (fun s => s.2)).sum

/-- The three instruments registered by `init`. -/
structure Registry where
  /-- Counter vector `helloworld_requests_total`. -/
  requestsTotal : List (CounterLabels × Nat)
  /-- Histogram vector `helloworld_request_duration_seconds`: the observations made. -/
  requestDuration : List ((String × String) × ℚ)
  /-- Gauge `helloworld_in_flight_requests`. -/
  inFlightRequests : Int
  deriving DecidableEq

/-- The registry at process start. -/
def Registry.init : Registry := ⟨[], [], 0⟩

/-- Effect of one call on the instruments. -/
def Registry.step (g : Registry) : Event → Registry
  | Event.gaugeInc => { g with inFlightRequests := g.inFlightRequests + 1 }
  | Event.gaugeDec => { g with inFlightRequests := g.inFlightRequests - 1 }
  | Event.counterInc m p s => { g with requestsTotal := counterVecInc g.requestsTotal (m, p, s) }
  | Event.histObserve m p x => { g with requestDuration := g.requestDuration ++ [((m, p), x)] }
  | _ => g

/-- The registry after a sequence of calls. -/
def Registry.run (g : Registry) (t : List Event) : Registry := t.foldl Registry.step g

/-- Whether a call touches a metrics instrument, a span or the logger. -/
def Event.isTelemetry : Event → Bool
  | Event.headerSet _ _ => false
  | Event.writeHeader _ => false
  | Event.write _ => false
  | Event.sleep _ => false
  | _ => true

/-- The log records emitted, in order. -/
def logRecords (t : List Event) : List (Level × String × List (String × LogValue)) :=
  t.filterMap fun e => match e with
    | Event.log l m a => some (l, m, a)
    | _ => none

/-- The spans started, in order. -/
def spansStarted (t : List Event) : List String :=
  t.filterMap fun e => match e with
    | Event.spanStart n _ => some n
    | _ => none

/-- The spans ended, in order. -/
def spansEnded (t : List Event) : List String :=
  t.filterMap fun e => match e with
    | Event.spanEnd n => some n
    | _ => none

/-- The attributes set on a span, in order. -/
def spanAttributes (t : List Event) (span : String) : List (String × AttrValue) :=
  (t.filterMap fun e => match e with
    | Event.spanSetAttributes n kv => if n = span then some kv else none
    | _ => none).flatten

/-- The durations slept, in order. -/
def sleeps (t : List Event) : List Int :=
  t.filterMap fun e => match e with
    | Event.sleep d => some d
    | _ => none

/-- The status codes passed to `WriteHeader`, in order. -/
def statusesWritten (t : List Event) : List Int :=
  t.filterMap fun e => match e with
    | Event.writeHeader s => some s
    | _ => none

/-! ## Concurrent executions -/

/-- The scheduler lets goroutine `i` make its next call, if it has one left. -/
def stepAt : Nat → List (List Event) → Option (Event × List (List Event))
  | _, [] => none
  | 0, [] :: _ => none
  | 0, (e :: t) :: ts => some (e, t :: ts)
  | i + 1, t :: ts =>
      match stepAt i ts with
      | some (e, ts') => some (e, t :: ts')
      | none => none

/-- Run goroutines under a schedule (the goroutine to advance at each step): the
interleaved calls, and what is left of each goroutine. -/
def schedule : List Nat → List (List Event) → List Event × List (List Event)
  | [], ts => ([], ts)
  | i :: sched, ts =>
      match stepAt i ts with
      | some (e, ts') => (e :: (schedule sched ts').1, (schedule sched ts').2)
      | none => schedule sched ts

/-- Change of the in-flight gauge made by one call. -/
def gaugeDelta : Event → Int
  | Event.gaugeInc => 1
  | Event.gaugeDec => -1
  | _ => 0

/-- Number of executions outstanding, given what is left of each and the whole of
each: those that have made some of their calls and not all. -/
def outstanding : List (List Event) → List (List Event) → Nat
  | rest :: rs, whole :: ws => (if rest ≠ whole ∧ rest ≠ [] then 1 else 0) + outstanding rs ws
  | _, _ => 0

/-- Number of increments one call makes on the series of `requestsTotal` with this
method and path. -/
def counterDelta (method path : String) : Event → Nat
  | Event.counterInc m p _ => if m = method ∧ p = path then 1 else 0
  | _ => 0

/-! ## The server built by `main` -/

/-- Function `os.Getenv`: the value of the variable, `""` when it is unset. -/
def Getenv (environ : List (String × String)) (key : String) : String :=
  (environ.lookup key).getD ""

/-- The fields of `http.Server` set by `main`. -/
structure Server where
  /-- Field `Addr`. -/
  Addr : String
  /-- Field `ReadTimeout`, in nanoseconds. -/
  ReadTimeout : Int
  /-- Field `WriteTimeout`, in nanoseconds. -/
  WriteTimeout : Int
  deriving DecidableEq, Repr

/-- The server `main` constructs under a process environment. -/
def mainServer (environ : List (String × String)) : Server :=
  let port := Getenv environ "PORT"
  let port := if port = "" then "8080" else port
  { Addr := ":" ++ port
    ReadTimeout := 10 * Second
    WriteTimeout := 10 * Second }

/-! ## Example inputs -/

/-- A request `GET /hello` without query string. -/
def plainRequest : Request := ⟨"GET", "/hello", "/hello", []⟩

/-- A request `GET /hello?name=Bob`. -/
def bobRequest : Request := ⟨"GET", "/hello", "/hello?name=Bob", [("name", ["Bob"])]⟩

/-- An environment whose draw `0.5` is above the error threshold: 57 ms of work,
and a clock that starts at zero. -/
def calmEnv : Env := ⟨7, 1 / 2, "4bf92f3577b34da6a3ce929d0e0e4736", 0, 57003000, 57004000⟩

/-- An environment whose draw `0` is below the error threshold. -/
def faultyEnv : Env := ⟨7, 0, "4bf92f3577b34da6a3ce929d0e0e4736", 0, 57003000, 57004000⟩

/-- Two executions that return: one on the success branch, one on the failure branch. -/
def twoCalls : List (Request × Env × Option Nat) :=
  [(bobRequest, calmEnv, none), (plainRequest, faultyEnv, none)]

/-- A schedule that alternates between two goroutines until both are done. -/
def alternating : List Nat :=
  [0, 1, 0, 1, 0, 1, 0, 1, 0, 1, 0, 1, 0, 1, 0, 1, 0, 1, 0, 1, 0, 1, 0, 1, 0, 1, 0, 1, 0, 1, 1, 1]

/-! ## Rounding -/

/-- Rounding to nearest does not go below the floor. -/
theorem floor_le_roundHalfEven (q : ℚ) : ⌊q⌋ ≤ roundHalfEven q := by
  unfold roundHalfEven
  split_ifs <;> omega

/-- Rounding does not go below an integer that is less than half a unit above. -/
theorem le_roundHalfEven (q : ℚ) (n : ℤ) (h : (n : ℚ) - 1 / 2 < q) : n ≤ roundHalfEven q := by
  by_cases hf : n ≤ ⌊q⌋
  · exact hf.trans (floor_le_roundHalfEven q)
  · have h1 : ⌊q⌋ = n - 1 := by
      have h2 : n - 1 ≤ ⌊q⌋ := by
        rw [Int.le_floor]
        push_cast
        linarith
      omega
    have h3 : 1 / 2 < Int.fract q := by
      rw [← Int.self_sub_floor, h1]
      push_cast
      linarith
    unfold roundHalfEven
    rw [if_neg (by linarith), if_pos h3, h1]
    omega

/-- An integer rounds to itself. -/
theorem roundHalfEven_intCast (n : ℤ) : roundHalfEven (n : ℚ) = n := by
  unfold roundHalfEven
  simp

/-- Powers of two are positive. -/
theorem two_zpow_pos (e : ℤ) : (0 : ℚ) < (2 : ℚ) ^ e := zpow_pos (by norm_num) e

/-- Rounding keeps a nonnegative number nonnegative. -/
theorem roundFloat64_nonneg (x : ℚ) (h : 0 ≤ x) : 0 ≤ roundFloat64 x := by
  unfold roundFloat64
  have h1 : (0 : ℤ) ≤ roundHalfEven (x / (2 : ℚ) ^ ulpExp x) := by
    apply le_roundHalfEven
    have := div_nonneg h (two_zpow_pos (ulpExp x)).le
    push_cast
    linarith
  have h2 : (0 : ℚ) ≤ (roundHalfEven (x / (2 : ℚ) ^ ulpExp x) : ℚ) := by exact_mod_cast h1
  exact mul_nonneg h2 (two_zpow_pos _).le

/-- Rounding does not go below a power of two that the number reaches. -/
theorem zpow_le_roundFloat64 (x : ℚ) (k : ℤ) (hk : -1074 ≤ k) (h : (2 : ℚ) ^ k ≤ x) :
    (2 : ℚ) ^ k ≤ roundFloat64 x := by
  have hx : 0 < x := lt_of_lt_of_le (two_zpow_pos k) h
  have hkL : k ≤ Int.log 2 x := by
    have := (Int.zpow_le_iff_le_log (b := 2) (by norm_num) (x := k) hx).1 (by exact_mod_cast h)
    exact this
  have hL : ((2 : ℕ) : ℚ) ^ Int.log 2 x ≤ x := Int.zpow_log_le_self (by norm_num) hx
  have hL' : (2 : ℚ) ^ Int.log 2 x ≤ x := by exact_mod_cast hL
  have he : ulpExp x ≤ Int.log 2 x := by
    unfold ulpExp
    rw [abs_of_pos hx]
    omega
  obtain ⟨j, hj⟩ := Int.eq_ofNat_of_zero_le (sub_nonneg.2 he)
  have hsplit : (2 : ℚ) ^ Int.log 2 x = (2 : ℚ) ^ j * (2 : ℚ) ^ ulpExp x := by
    rw [← zpow_natCast, ← zpow_add₀ (by norm_num : (2 : ℚ) ≠ 0), ← hj]
    congr 1
    omega
  have hq : (((2 : ℤ) ^ j : ℤ) : ℚ) ≤ x / (2 : ℚ) ^ ulpExp x := by
    rw [le_div_iff₀ (two_zpow_pos _)]
    push_cast
    rw [← hsplit]
    exact hL'
  have hr : (2 : ℤ) ^ j ≤ roundHalfEven (x / (2 : ℚ) ^ ulpExp x) := by
    apply le_roundHalfEven
    linarith
  have hr' : ((2 : ℚ) ^ j) ≤ (roundHalfEven (x / (2 : ℚ) ^ ulpExp x) : ℚ) := by exact_mod_cast hr
  calc (2 : ℚ) ^ k ≤ (2 : ℚ) ^ Int.log 2 x := zpow_le_zpow_right₀ (by norm_num) hkL
    _ = (2 : ℚ) ^ j * (2 : ℚ) ^ ulpExp x := hsplit
    _ ≤ roundFloat64 x := by
      unfold roundFloat64
      exact mul_le_mul_of_nonneg_right hr' (two_zpow_pos _).le

/-- Rounding does not take a number that is at least `0.05` below `0.05`: the
binary64 number nearest to `0.05` lies above it. -/
theorem one_twentieth_le_roundFloat64 (x : ℚ) (h : 1 / 20 ≤ x) : 1 / 20 ≤ roundFloat64 x := by
  have hx : 0 < x := by linarith
  by_cases hbig : (2 : ℚ) ^ (-4 : ℤ) ≤ x
  · have := zpow_le_roundFloat64 x (-4) (by norm_num) hbig
    have h16 : (2 : ℚ) ^ (-4 : ℤ) = 1 / 16 := by norm_num [zpow_neg]
    rw [h16] at this
    linarith
  · have hlog : Int.log 2 x = -5 := by
      have h1 : -5 ≤ Int.log 2 x := by
        apply (Int.zpow_le_iff_le_log (b := 2) (by norm_num) hx).1
        norm_num [zpow_neg]
        linarith
      have h2 : Int.log 2 x < -4 := by
        apply (Int.lt_zpow_iff_log_lt (b := 2) (by norm_num) hx).1
        push_neg at hbig
        exact_mod_cast hbig
      omega
    have he : ulpExp x = -57 := by
      unfold ulpExp
      rw [abs_of_pos hx, hlog]
      norm_num
    have hp : (2 : ℚ) ^ (-57 : ℤ) = 1 / 144115188075855872 := by norm_num [zpow_neg]
    have hr : (7205759403792794 : ℤ) ≤ roundHalfEven (x / (2 : ℚ) ^ (-57 : ℤ)) := by
      apply le_roundHalfEven
      rw [hp]
      push_cast
      rw [div_div_eq_mul_div, div_one]
      linarith
    have hr' : (7205759403792794 : ℚ) ≤ (roundHalfEven (x / (2 : ℚ) ^ (-57 : ℤ)) : ℚ) := by
      exact_mod_cast hr
    unfold roundFloat64
    rw [he, hp] at *
    linarith

/-- Conversion of an integer of magnitude below `2 ^ 53` to `float64` is exact. -/
theorem roundFloat64_natCast (n : ℕ) (h : n < 2 ^ 53) : roundFloat64 (n : ℚ) = n := by
  rcases Nat.eq_zero_or_pos n with rfl | hn
  · simp [roundFloat64, roundHalfEven]
  have hx : (0 : ℚ) < n := by exact_mod_cast hn
  have hlog0 : 0 ≤ Int.log 2 (n : ℚ) := by
    rw [Int.log_natCast]
    exact Int.natCast_nonneg _
  have hlog1 : Int.log 2 (n : ℚ) < 53 := by
    apply (Int.lt_zpow_iff_log_lt (b := 2) (by norm_num) hx).1
    have h53 : ((n : ℕ) : ℚ) < ((9007199254740992 : ℕ) : ℚ) := Nat.cast_lt.2 (by omega)
    norm_num
    exact_mod_cast h53
  have he : ulpExp (n : ℚ) = Int.log 2 (n : ℚ) - 52 := by
    unfold ulpExp
    rw [abs_of_pos hx]
    omega
  obtain ⟨j, hj⟩ := Int.eq_ofNat_of_zero_le (show 0 ≤ 52 - Int.log 2 (n : ℚ) by omega)
  have hexp : ulpExp (n : ℚ) = -(j : ℤ) := by omega
  have hq : (n : ℚ) / (2 : ℚ) ^ ulpExp (n : ℚ) = (((n : ℤ) * 2 ^ j : ℤ) : ℚ) := by
    rw [hexp, zpow_neg, zpow_natCast]
    push_cast
    field_simp
  unfold roundFloat64
  rw [hq, roundHalfEven_intCast, hexp, zpow_neg, zpow_natCast]
  push_cast
  field_simp

/-- Between `0.05` and the binary64 constant `0.05` there is no binary64 number:
for a `float64` draw the comparison with the constant is the comparison with `0.05`. -/
theorem lt_float64_0_05_iff (u : ℚ) (hu : IsFloat64 u) : u < float64_0_05 ↔ u < 5 / 100 := by
  constructor
  · intro h
    by_contra hge
    push_neg at hge
    obtain ⟨m, e, hm, -, -, rfl⟩ := hu
    unfold float64_0_05 at h
    by_cases hexp : -57 ≤ e
    · obtain ⟨k, hk⟩ := Int.eq_ofNat_of_zero_le (show 0 ≤ e + 57 by omega)
      have he : e = (k : ℤ) - 57 := by omega
      have hpow : (2 : ℚ) ^ e = (2 : ℚ) ^ k / 144115188075855872 := by
        rw [he, zpow_sub₀ (by norm_num : (2 : ℚ) ≠ 0), zpow_natCast]
        norm_num
      rw [hpow] at h hge
      have h1 : ((m * 2 ^ k : ℕ) : ℚ) < ((7205759403792794 : ℕ) : ℚ) := by
        push_cast
        have := h
        rw [mul_div_assoc'] at this
        rw [div_lt_div_iff_of_pos_right (by norm_num)] at this
        exact this
      have h2 : ((144115188075855872 : ℕ) : ℚ) ≤ ((20 * (m * 2 ^ k) : ℕ) : ℚ) := by
        push_cast
        rw [mul_div_assoc', le_div_iff₀ (by norm_num)] at hge
        linarith
      have h1' : m * 2 ^ k < 7205759403792794 := by exact_mod_cast h1
      have h2' : 144115188075855872 ≤ 20 * (m * 2 ^ k) := by exact_mod_cast h2
      omega
    · have hle : (2 : ℚ) ^ e ≤ (2 : ℚ) ^ (-58 : ℤ) :=
        zpow_le_zpow_right₀ (by norm_num) (by omega)
      have hp : (2 : ℚ) ^ (-58 : ℤ) = 1 / 288230376151711744 := by norm_num [zpow_neg]
      have hm' : (m : ℚ) ≤ 9007199254740992 := by
        have : ((m : ℕ) : ℚ) ≤ ((9007199254740992 : ℕ) : ℚ) := by
          apply Nat.cast_le.2
          norm_num at hm
          omega
        simpa using this
      have hmul : (m : ℚ) * (2 : ℚ) ^ e ≤ 9007199254740992 * (1 / 288230376151711744) := by
        rw [← hp]
        exact mul_le_mul hm' hle (two_zpow_pos e).le (by norm_num)
      norm_num at hmul hge
      linarith
  · intro h
    unfold float64_0_05
    have : (5 : ℚ) / 100 < 7205759403792794 / 144115188075855872 := by norm_num
    linarith

/-- The constant is the binary64 rounding of `0.05`. -/
theorem float64_0_05_eq_round : float64_0_05 = roundFloat64 (5 / 100) := by
  have hx : (0 : ℚ) < 5 / 100 := by norm_num
  have hlog : Int.log 2 ((5 : ℚ) / 100) = -5 := by
    have h1 : -5 ≤ Int.log 2 ((5 : ℚ) / 100) := by
      apply (Int.zpow_le_iff_le_log (b := 2) (by norm_num) hx).1
      norm_num [zpow_neg]
    have h2 : Int.log 2 ((5 : ℚ) / 100) < -4 := by
      apply (Int.lt_zpow_iff_log_lt (b := 2) (by norm_num) hx).1
      norm_num [zpow_neg]
    omega
  have he : ulpExp ((5 : ℚ) / 100) = -57 := by
    unfold ulpExp
    rw [abs_of_pos hx, hlog]
    norm_num
  have hp : (2 : ℚ) ^ (-57 : ℤ) = 1 / 144115188075855872 := by norm_num [zpow_neg]
  have hq : (5 : ℚ) / 100 / (1 / 144115188075855872) = 36028797018963968 / 5 := by norm_num
  have hfloor : ⌊(36028797018963968 : ℚ) / 5⌋ = 7205759403792793 := by
    rw [Int.floor_eq_iff]
    constructor <;> norm_num
  have hfract : Int.fract ((36028797018963968 : ℚ) / 5) = 3 / 5 := by
    rw [← Int.self_sub_floor, hfloor]
    norm_num
  have hr : roundHalfEven ((36028797018963968 : ℚ) / 5) = 7205759403792794 := by
    unfold roundHalfEven
    rw [hfract, hfloor]
    norm_num
  unfold roundFloat64 float64_0_05
  rw [he, hp, hq, hr]
  norm_num

/-- Conversion of a nonnegative integer below `2 ^ 53` to `float64` is exact. -/
theorem float64OfInt_of_lt (i : Int) (h0 : 0 ≤ i) (h1 : i < 2 ^ 53) : float64OfInt i = i := by
  obtain ⟨n, rfl⟩ := Int.eq_ofNat_of_zero_le h0
  unfold float64OfInt
  rw [Int.cast_natCast]
  exact roundFloat64_natCast n (by exact_mod_cast h1)

/-- A duration of at least 50 ms is at least `0.05` in seconds, rounding included. -/
theorem one_twentieth_le_durationSeconds (d : Int) (h : 50000000 ≤ d) :
    1 / 20 ≤ durationSeconds d := by
  have hd : 0 ≤ d := by omega
  have hS : (0 : Int) ≤ Second := by decide
  unfold durationSeconds
  rw [Int.tdiv_eq_ediv hd hS, Int.tmod_eq_emod hd hS]
  have hn0 : 0 ≤ d % Second := Int.emod_nonneg _ (by decide)
  have hn1 : d % Second < 1000000000 := Int.emod_lt_of_pos _ (by decide)
  have hbil : float64OfInt 1000000000 = ((1000000000 : Int) : ℚ) :=
    float64OfInt_of_lt 1000000000 (by decide) (by decide)
  have hbil' : roundFloat64 1000000000 = 1000000000 := by
    have := hbil
    unfold float64OfInt at this
    push_cast at this
    exact this
  have hnsec : float64OfInt (d % Second) = ((d % Second : Int) : ℚ) :=
    float64OfInt_of_lt _ hn0 (by omega)
  rw [hbil', hnsec]
  by_cases hsec : d / Second = 0
  · have hdn : d % Second = d := by
      have := Int.emod_add_ediv d Second
      rw [hsec] at this
      omega
    have hz : float64OfInt 0 = 0 := by
      simpa using float64OfInt_of_lt 0 (by decide) (by decide)
    rw [hsec, hz, hdn, zero_add]
    apply one_twentieth_le_roundFloat64
    apply one_twentieth_le_roundFloat64
    rw [le_div_iff₀ (by norm_num)]
    have : ((50000000 : Int) : ℚ) ≤ (d : ℚ) := by exact_mod_cast h
    push_cast at this
    linarith
  · have hsec1 : 1 ≤ d / Second := by
      have := Int.ediv_nonneg hd hS
      omega
    have hf1 : (2 : ℚ) ^ (0 : ℤ) ≤ float64OfInt (d / Second) := by
      apply zpow_le_roundFloat64 _ 0 (by norm_num)
      rw [zpow_zero]
      exact_mod_cast hsec1
    have hf2 : 0 ≤ roundFloat64 (((d % Second : Int) : ℚ) / 1000000000) := by
      apply roundFloat64_nonneg
      apply div_nonneg _ (by norm_num)
      exact_mod_cast hn0
    have hsum : (2 : ℚ) ^ (0 : ℤ) ≤ float64OfInt (d / Second)
        + roundFloat64 (((d % Second : Int) : ℚ) / 1000000000) := by linarith
    have := zpow_le_roundFloat64 _ 0 (by norm_num) hsum
    rw [zpow_zero] at this
    linarith

/-! ## The calls of one execution -/

/-- The statements of `helloHandler`, written out. -/
theorem helloStmts_eq (r : Request) (env : Env) :
    helloStmts r env =
      [ Stmt.call Event.gaugeInc,
        Stmt.defer Event.gaugeDec,
        Stmt.call (Event.spanStart "hello-handler" none),
        Stmt.defer (Event.spanEnd "hello-handler"),
        Stmt.call (Event.spanStart "process-request" (some "hello-handler")),
        Stmt.call (Event.sleep (workDuration env)),
        Stmt.call (Event.spanSetAttributes "process-request"
          [("work.duration_ms", AttrValue.int64 (durationMilliseconds (workDuration env)))]),
        Stmt.call (Event.spanEnd "process-request"),
        Stmt.call (Event.spanSetAttributes "hello-handler"
          [("request.name", AttrValue.string (requestName r)),
           ("http.method", AttrValue.string r.Method),
           ("http.url", AttrValue.string r.URL)]),
        Stmt.call (Event.log Level.info "request handled"
          [("method", LogValue.string r.Method),
           ("path", LogValue.string r.Path),
           ("name", LogValue.string (requestName r)),
           ("duration_ms", LogValue.int64 (durationMilliseconds (timeSince env.start env.now1))),
           ("trace_id", LogValue.string env.traceID)]) ]
      ++ (if simulatedError env then
            [ Stmt.call (Event.spanSetAttributes "hello-handler" [("error", AttrValue.bool true)]),
              Stmt.call (Event.log Level.error "simulated error"
                [("trace_id", LogValue.string env.traceID)]) ]
          else [])
      ++
      [ Stmt.call (Event.headerSet "Content-Type" "text/plain"),
        Stmt.call (Event.writeHeader (helloStatus env)),
        Stmt.call (Event.write (helloMessage r env ++ "\n")),
        Stmt.call (Event.counterInc r.Method r.Path (sprintfD (helloStatus env))),
        Stmt.call (Event.histObserve r.Method r.Path
          (durationSeconds (timeSince env.start env.now2))) ] := by
  cases h : simulatedError env <;>
  simp [helloStmts, helloBody, h, call, deferCall, timeNow, timeSleep, timeSinceNow,
    BodyState.init, StateT.run, bind, StateT.bind, modify, modifyGet, MonadStateOf.modifyGet,
    StateT.modifyGet, get, getThe, MonadStateOf.get, StateT.get, set, StateT.set, pure,
    StateT.pure, Env.reading, helloStatus, helloMessage]

/-- The clock actions of `helloHandler`, written out: the sleep lies between the
first reading and the two others. -/
theorem helloClock_eq (r : Request) (env : Env) :
    helloClock r env =
      [ ClockAction.read env.start, ClockAction.sleep (workDuration env),
        ClockAction.read env.now1, ClockAction.read env.now2 ] := by
  unfold helloClock helloBody
  cases simulatedError env <;> rfl

/-- The draw `0.5` does not take the simulated-failure branch. -/
theorem simulatedError_calmEnv : simulatedError calmEnv = false := by
  simp only [simulatedError, calmEnv, float64_0_05, decide_eq_false_iff_not]
  norm_num

/-- The draw `0` takes the simulated-failure branch. -/
theorem simulatedError_faultyEnv : simulatedError faultyEnv = true := by
  simp only [simulatedError, faultyEnv, float64_0_05, decide_eq_true_eq]
  norm_num

/-- The calls of an execution that returns on the success branch. -/
theorem helloHandler_success (r : Request) (env : Env) (h : simulatedError env = false) :
    helloHandler r env none =
      [ Event.gaugeInc,
        Event.spanStart "hello-handler" none,
        Event.spanStart "process-request" (some "hello-handler"),
        Event.sleep (workDuration env),
        Event.spanSetAttributes "process-request"
          [("work.duration_ms", AttrValue.int64 (durationMilliseconds (workDuration env)))],
        Event.spanEnd "process-request",
        Event.spanSetAttributes "hello-handler"
          [("request.name", AttrValue.string (requestName r)),
           ("http.method", AttrValue.string r.Method),
           ("http.url", AttrValue.string r.URL)],
        Event.log Level.info "request handled"
          [("method", LogValue.string r.Method),
           ("path", LogValue.string r.Path),
           ("name", LogValue.string (requestName r)),
           ("duration_ms", LogValue.int64 (durationMilliseconds (timeSince env.start env.now1))),
           ("trace_id", LogValue.string env.traceID)],
        Event.headerSet "Content-Type" "text/plain",
        Event.writeHeader 200,
        Event.write ("Hello, " ++ requestName r ++ "!" ++ "\n"),
        Event.counterInc r.Method r.Path (sprintfD 200),
        Event.histObserve r.Method r.Path (durationSeconds (timeSince env.start env.now2)),
        Event.spanEnd "hello-handler",
        Event.gaugeDec ] := by
  simp [helloHandler, helloStmts_eq, exec, helloStatus, helloMessage, h, StatusOK]

/-- The calls of an execution that returns on the simulated-failure branch. -/
theorem helloHandler_failure (r : Request) (env : Env) (h : simulatedError env = true) :
    helloHandler r env none =
      [ Event.gaugeInc,
        Event.spanStart "hello-handler" none,
        Event.spanStart "process-request" (some "hello-handler"),
        Event.sleep (workDuration env),
        Event.spanSetAttributes "process-request"
          [("work.duration_ms", AttrValue.int64 (durationMilliseconds (workDuration env)))],
        Event.spanEnd "process-request",
        Event.spanSetAttributes "hello-handler"
          [("request.name", AttrValue.string (requestName r)),
           ("http.method", AttrValue.string r.Method),
           ("http.url", AttrValue.string r.URL)],
        Event.log Level.info "request handled"
          [("method", LogValue.string r.Method),
           ("path", LogValue.string r.Path),
           ("name", LogValue.string (requestName r)),
           ("duration_ms", LogValue.int64 (durationMilliseconds (timeSince env.start env.now1))),
           ("trace_id", LogValue.string env.traceID)],
        Event.spanSetAttributes "hello-handler" [("error", AttrValue.bool true)],
        Event.log Level.error "simulated error" [("trace_id", LogValue.string env.traceID)],
        Event.headerSet "Content-Type" "text/plain",
        Event.writeHeader 500,
        Event.write ("Something went wrong!" ++ "\n"),
        Event.counterInc r.Method r.Path (sprintfD 500),
        Event.histObserve r.Method r.Path (durationSeconds (timeSince env.start env.now2)),
        Event.spanEnd "hello-handler",
        Event.gaugeDec ] := by
  simp [helloHandler, helloStmts_eq, exec, helloStatus, helloMessage, h, StatusInternalServerError]

/-- Appending to the empty string. -/
theorem empty_append_string (s : String) : "" ++ s = s := by
  apply String.ext
  simp

/-- The response of an execution that returns on the success branch. -/
theorem response_success (r : Request) (env : Env) (h : simulatedError env = false) :
    response (helloHandler r env none) =
      ⟨true, 200, [("Content-Type", "text/plain")], "Hello, " ++ requestName r ++ "!" ++ "\n"⟩ := by
  rw [helloHandler_success r env h]
  simp [response, Response.step, Response.init, empty_append_string]

/-- The response of an execution that returns on the simulated-failure branch. -/
theorem response_failure (r : Request) (env : Env) (h : simulatedError env = true) :
    response (helloHandler r env none) =
      ⟨true, 500, [("Content-Type", "text/plain")], "Something went wrong!\n"⟩ := by
  rw [helloHandler_failure r env h]
  simp [response, Response.step, Response.init, empty_append_string]

/-- With a draw in `[0, 200)` nothing wraps: the work lasts `50 + intn` milliseconds. -/
theorem workDuration_eq (env : Env) (h0 : 0 ≤ env.intn) (h1 : env.intn < 200) :
    workDuration env = (50 + env.intn) * 1000000 := by
  have e1 : wrapInt64 (50 + env.intn) = 50 + env.intn := by
    unfold wrapInt64
    omega
  unfold workDuration
  rw [e1]
  unfold wrapInt64 Millisecond
  omega

/-- With a draw in `[0, 200)` the work duration is a whole number of milliseconds. -/
theorem workDuration_milliseconds (env : Env) (h0 : 0 ≤ env.intn) (h1 : env.intn < 200) :
    durationMilliseconds (workDuration env) = 50 + env.intn := by
  rw [workDuration_eq env h0 h1]
  unfold durationMilliseconds
  exact Int.mul_tdiv_cancel _ (by decide)

/-- Only calls written in the body take effect in an execution. -/
theorem mem_exec (stmts : List Stmt) (fault : Option Nat) (deferred : List Event) (e : Event)
    (h : e ∈ exec fault deferred stmts) :
    e ∈ deferred ∨ Stmt.call e ∈ stmts ∨ Stmt.defer e ∈ stmts := by
  induction stmts generalizing fault deferred with
  | nil => exact Or.inl (by simpa [exec] using h)
  | cons s rest ih =>
    cases s with
    | defer d =>
      rw [exec] at h
      rcases ih _ _ h with h1 | h1 | h1
      · rcases List.mem_cons.1 h1 with rfl | h2
        · exact Or.inr (Or.inr (List.mem_cons_self _ _))
        · exact Or.inl h2
      · exact Or.inr (Or.inl (List.mem_cons_of_mem _ h1))
      · exact Or.inr (Or.inr (List.mem_cons_of_mem _ h1))
    | call c =>
      have key : ∀ f', e ∈ c :: exec f' deferred rest →
          e ∈ deferred ∨ Stmt.call e ∈ Stmt.call c :: rest ∨ Stmt.defer e ∈ Stmt.call c :: rest := by
        intro f' h'
        rcases List.mem_cons.1 h' with rfl | h2
        · exact Or.inr (Or.inl (List.mem_cons_self _ _))
        · rcases ih _ _ h2 with h1 | h1 | h1
          · exact Or.inl h1
          · exact Or.inr (Or.inl (List.mem_cons_of_mem _ h1))
          · exact Or.inr (Or.inr (List.mem_cons_of_mem _ h1))
      cases fault with
      | none =>
        rw [exec] at h
        exact key _ h
      | some k =>
        cases k with
        | zero =>
          rw [exec] at h
          exact Or.inl h
        | succ k =>
          rw [exec] at h
          exact key _ h

/-- The deferred call registered first runs last. -/
theorem exec_append_singleton (stmts : List Stmt) (fault : Option Nat) (deferred : List Event)
    (d : Event) : exec fault (deferred ++ [d]) stmts = exec fault deferred stmts ++ [d] := by
  induction stmts generalizing fault deferred with
  | nil => simp [exec]
  | cons s rest ih =>
    cases s with
    | defer d' =>
      rw [exec, exec, ← List.cons_append, ih]
    | call c =>
      cases fault with
      | none => rw [exec, exec, ih, List.cons_append]
      | some k =>
        cases k with
        | zero => rw [exec, exec]
        | succ k => rw [exec, exec, ih, List.cons_append]

/-! ## The greeting -/

/-- C1, as amended: on an execution that returns without taking the simulated-failure
branch, the response body is `Hello, World!` followed by a newline when the `name`
parameter is absent or empty, and `Hello, {name}!` followed by a newline otherwise. -/
theorem hello_body_greeting (r : Request) (env : Env) (h : simulatedError env = false) :
    (r.Query.lookup "name" = none → Values.Get r.Query "name" = "") ∧
    (Values.Get r.Query "name" = "" →
      (response (helloHandler r env none)).body = "Hello, World!\n") ∧
    (Values.Get r.Query "name" ≠ "" →
      (response (helloHandler r env none)).body
        = "Hello, " ++ Values.Get r.Query "name" ++ "!" ++ "\n") := by
  rw [response_success r env h]
  refine ⟨?_, ?_, ?_⟩
  · intro hn
    simp [Values.Get, hn]
  · intro hn
    simp only [requestName, hn, if_true]
    rfl
  · intro hn
    simp only [requestName, hn, if_false]

/-- C1, instance: `GET /hello?name=Bob` off the failure branch is answered `Hello, Bob!` and a newline. -/
theorem hello_body_greeting_witness :
    simulatedError calmEnv = false ∧
    (response (helloHandler bobRequest calmEnv none)).body = "Hello, Bob!\n" :=
  ⟨simulatedError_calmEnv,
    ((hello_body_greeting bobRequest calmEnv simulatedError_calmEnv).2.2 (by decide)).trans
      (by decide)⟩

/-- C1 as stated fails: without a `name` parameter and off the failure branch the
body is not exactly `Hello, World!`, it ends in a newline. -/
theorem hello_body_has_newline :
    simulatedError calmEnv = false ∧ Values.Get plainRequest.Query "name" = "" ∧
    (response (helloHandler plainRequest calmEnv none)).body ≠ "Hello, World!" := by
  refine ⟨simulatedError_calmEnv, by decide, ?_⟩
  rw [response_success _ _ simulatedError_calmEnv]
  decide

/-! ## The health probe -/

/-- C3, as amended: for every request, an execution of `healthHandler` that returns
responds with status 200 and the body `ok` followed by a newline, and makes no call
on a metrics instrument, a span or the logger. -/
theorem health_response (r : Request) :
    (response (healthHandler r none)).status = 200 ∧
    (response (healthHandler r none)).body = "ok\n" ∧
    (healthHandler r none).filter Event.isTelemetry = [] :=
  ⟨rfl, rfl, rfl⟩

/-- C3 as stated fails: the body is not exactly `ok`, it ends in a newline. -/
theorem health_body_has_newline :
    (response (healthHandler plainRequest none)).body ≠ "ok" := by
  decide

/-! ## Log records -/

/-- C7, as amended: an execution that returns always emits, at info level, the record
`request handled` with method, path, name, elapsed milliseconds and trace identifier;
when the simulated failure is taken it emits after it a second record, at error
level, `simulated error`, which carries the trace identifier only. -/
theorem hello_log_records (r : Request) (env : Env) :
    logRecords (helloHandler r env none) =
      (Level.info, "request handled",
        [("method", LogValue.string r.Method),
         ("path", LogValue.string r.Path),
         ("name", LogValue.string (requestName r)),
         ("duration_ms", LogValue.int64 (durationMilliseconds (timeSince env.start env.now1))),
         ("trace_id", LogValue.string env.traceID)])
      :: (if simulatedError env then
            [(Level.error, "simulated error", [("trace_id", LogValue.string env.traceID)])]
          else []) := by
  cases h : simulatedError env
  · rw [helloHandler_success r env h]
    simp [logRecords]
  · rw [helloHandler_failure r env h]
    simp [logRecords]

/-- C7 as stated fails: on the simulated-failure branch the record that carries the
method is at info level, and no record at error level carries a method. -/
theorem hello_error_record_lacks_method :
    simulatedError faultyEnv = true ∧
    (Level.info, "request handled",
        [("method", LogValue.string "GET"),
         ("path", LogValue.string "/hello"),
         ("name", LogValue.string "Bob"),
         ("duration_ms", LogValue.int64 57),
         ("trace_id", LogValue.string "4bf92f3577b34da6a3ce929d0e0e4736")])
      ∈ logRecords (helloHandler bobRequest faultyEnv none) ∧
    ∀ rec ∈ logRecords (helloHandler bobRequest faultyEnv none),
      rec.1 = Level.error → rec.2.2.lookup "method" = none := by
  refine ⟨simulatedError_faultyEnv, ?_, ?_⟩
  · rw [helloHandler_failure _ _ simulatedError_faultyEnv]
    simp [logRecords, bobRequest, faultyEnv, requestName, Values.Get, timeSince, satInt64,
      durationMilliseconds]
    decide
  · rw [helloHandler_failure _ _ simulatedError_faultyEnv]
    simp [logRecords]

/-! ## Spans -/

/-- C9: an execution of `helloHandler` that returns, on either branch, starts the
root span `hello-handler` and then the child span `process-request`, and ends each
of the two exactly once, the child before the root. -/
theorem hello_spans_ended_once (r : Request) (env : Env) :
    spansStarted (helloHandler r env none) = ["hello-handler", "process-request"] ∧
    spansEnded (helloHandler r env none) = ["process-request", "hello-handler"] := by
  cases h : simulatedError env
  · rw [helloHandler_success r env h]
    simp [spansStarted, spansEnded]
  · rw [helloHandler_failure r env h]
    simp [spansStarted, spansEnded]

/-! ## The server configuration -/

/-- C10: the listen address built by `main` is `:8080` when `PORT` is unset or empty
and `:` followed by the value of `PORT` otherwise, and the read and the write
timeout are both 10 seconds. -/
theorem main_server_config (environ : List (String × String)) :
    (environ.lookup "PORT" = none → (mainServer environ).Addr = ":8080") ∧
    (environ.lookup "PORT" = some "" → (mainServer environ).Addr = ":8080") ∧
    (∀ port, environ.lookup "PORT" = some port → port ≠ "" →
      (mainServer environ).Addr = ":" ++ port) ∧
    (mainServer environ).ReadTimeout = 10 * Second ∧
    (mainServer environ).WriteTimeout = 10 * Second ∧
    10 * Second = 10000000000 := by
  refine ⟨?_, ?_, ?_, rfl, rfl, by decide⟩
  · intro h
    simp [mainServer, Getenv, h]
  · intro h
    simp [mainServer, Getenv, h]
  · intro port h hp
    simp [mainServer, Getenv, h, hp]

/-- C10, instance: with `PORT=9090` the listen address is `:9090`. -/
theorem main_server_config_witness :
    (mainServer [("PORT", "9090")]).Addr = ":9090" :=
  ((main_server_config [("PORT", "9090")]).2.2.1 "9090" (by decide) (by decide)).trans
    (by decide)

/-! ## The simulated failure -/

/-- The calls of `WriteHeader` written in the body pass the local `status`. -/
theorem writeHeader_mem_helloHandler (r : Request) (env : Env) (fault : Option Nat) (s : Int)
    (h : Event.writeHeader s ∈ helloHandler r env fault) : s = helloStatus env := by
  rcases mem_exec _ _ _ _ h with h1 | h1 | h1
  · simp at h1
  · rw [helloStmts_eq] at h1
    split_ifs at h1 <;> simpa using h1
  · rw [helloStmts_eq] at h1
    split_ifs at h1 <;> simp at h1

/-- The status codes written are those of the calls of `WriteHeader`. -/
theorem mem_statusesWritten (t : List Event) (s : Int) :
    s ∈ statusesWritten t ↔ Event.writeHeader s ∈ t := by
  unfold statusesWritten
  rw [List.mem_filterMap]
  constructor
  · rintro ⟨e, he, hs⟩
    cases e <;> simp at hs
    subst hs
    exact he
  · intro h
    exact ⟨_, h, rfl⟩

/-- C2, as amended: for every request and every `float64` draw `u`, an execution of
`helloHandler` that returns responds with status 500 and the body
`Something went wrong!` followed by a newline, and sets the attribute `error` of the
root span to true, if `u < 0.05`; otherwise it responds with status 200 and sets no
attribute `error` on any span.  No execution passes another status code than 200 or
500 to `WriteHeader`. -/
theorem hello_simulated_failure (r : Request) (env : Env) (hu : IsFloat64 env.float64) :
    (env.float64 < 5 / 100 →
      (response (helloHandler r env none)).status = 500 ∧
      (response (helloHandler r env none)).body = "Something went wrong!\n" ∧
      ("error", AttrValue.bool true) ∈ spanAttributes (helloHandler r env none) "hello-handler") ∧
    (¬ env.float64 < 5 / 100 →
      (response (helloHandler r env none)).status = 200 ∧
      ∀ span v, ("error", v) ∉ spanAttributes (helloHandler r env none) span) ∧
    (∀ fault, ∀ s ∈ statusesWritten (helloHandler r env fault), s = 200 ∨ s = 500) := by
  refine ⟨?_, ?_, ?_⟩
  · intro h
    have hs : simulatedError env = true := by
      simpa [simulatedError] using (lt_float64_0_05_iff _ hu).2 h
    rw [response_failure r env hs, helloHandler_failure r env hs]
    refine ⟨rfl, rfl, ?_⟩
    simp [spanAttributes]
  · intro h
    have hs : simulatedError env = false := by
      simpa [simulatedError] using fun h' => h ((lt_float64_0_05_iff _ hu).1 h')
    rw [response_success r env hs, helloHandler_success r env hs]
    refine ⟨rfl, ?_⟩
    intro span v
    simp only [spanAttributes, List.filterMap_cons, List.filterMap_nil]
    split_ifs <;> simp
  · intro fault s hs
    have := writeHeader_mem_helloHandler r env fault s ((mem_statusesWritten _ _).1 hs)
    rw [this]
    unfold helloStatus StatusInternalServerError StatusOK
    split_ifs
    · exact Or.inr rfl
    · exact Or.inl rfl

/-- C2, instance: the draw `0` is a `float64` below `0.05`, and the response has status 500. -/
theorem hello_simulated_failure_witness :
    IsFloat64 faultyEnv.float64 ∧ faultyEnv.float64 < 5 / 100 ∧
    (response (helloHandler bobRequest faultyEnv none)).status = 500 :=
  have hf : IsFloat64 faultyEnv.float64 := ⟨0, 0, by norm_num, by norm_num, by norm_num, by
    simp [faultyEnv]⟩
  have hlt : faultyEnv.float64 < 5 / 100 := by
    simp only [faultyEnv]
    norm_num
  ⟨hf, hlt, ((hello_simulated_failure bobRequest faultyEnv hf).1 hlt).1⟩

/-- C2 as stated fails: on the simulated-failure branch the body is not
`Something went wrong!`, it ends in a newline. -/
theorem hello_failure_body_has_newline :
    faultyEnv.float64 < 5 / 100 ∧
    (response (helloHandler bobRequest faultyEnv none)).body ≠ "Something went wrong!" := by
  constructor
  · simp only [faultyEnv]
    norm_num
  · rw [response_failure _ _ simulatedError_faultyEnv]
    decide

/-! ## The simulated work -/

/-- C6: for every draw of `rand.Intn(200)`, the work duration is `d` milliseconds
with `d = 50 + draw`, so `50 ≤ d < 250`; the handler sleeps exactly that duration,
once, and sets `work.duration_ms` of the child span to the same `d`; and every
integer of `[50, 250)` is the `d` of some draw. -/
theorem hello_work_duration (r : Request) (env : Env) (h0 : 0 ≤ env.intn) (h1 : env.intn < 200) :
    50 ≤ 50 + env.intn ∧ 50 + env.intn < 250 ∧
    workDuration env = (50 + env.intn) * Millisecond ∧
    sleeps (helloHandler r env none) = [(50 + env.intn) * Millisecond] ∧
    spanAttributes (helloHandler r env none) "process-request"
      = [("work.duration_ms", AttrValue.int64 (50 + env.intn))] ∧
    ∀ d : Int, 50 ≤ d → d < 250 →
      ∃ env' : Env, 0 ≤ env'.intn ∧ env'.intn < 200 ∧
        sleeps (helloHandler r env' none) = [d * Millisecond] ∧
        spanAttributes (helloHandler r env' none) "process-request"
          = [("work.duration_ms", AttrValue.int64 d)] := by
  have main : ∀ e : Env, 0 ≤ e.intn → e.intn < 200 →
      sleeps (helloHandler r e none) = [(50 + e.intn) * Millisecond] ∧
      spanAttributes (helloHandler r e none) "process-request"
        = [("work.duration_ms", AttrValue.int64 (50 + e.intn))] := by
    intro e he0 he1
    have hw := workDuration_eq e he0 he1
    have hm := workDuration_milliseconds e he0 he1
    rw [hw] at hm
    cases hs : simulatedError e
    · rw [helloHandler_success r e hs]
      simp [sleeps, spanAttributes, hm, hw, Millisecond]
    · rw [helloHandler_failure r e hs]
      simp [sleeps, spanAttributes, hm, hw, Millisecond]
  refine ⟨by omega, by omega, workDuration_eq env h0 h1, (main env h0 h1).1, (main env h0 h1).2, ?_⟩
  intro d hd0 hd1
  refine ⟨{ env with intn := d - 50 }, by simp; omega, by simp; omega, ?_⟩
  have := main { env with intn := d - 50 } (by simp; omega) (by simp; omega)
  simpa using this

/-- C6, instance: the draw `7` makes the handler sleep 57 ms. -/
theorem hello_work_duration_witness :
    sleeps (helloHandler bobRequest calmEnv none) = [57000000] :=
  (hello_work_duration bobRequest calmEnv (by decide) (by decide)).2.2.2.1.trans (by decide)

/-! ## The duration histogram -/

/-- The observations written in the body are of the time since `start`. -/
theorem histObserve_mem_helloHandler (r : Request) (env : Env) (fault : Option Nat)
    (m p : String) (s : ℚ) (h : Event.histObserve m p s ∈ helloHandler r env fault) :
    s = durationSeconds (timeSince env.start env.now2) := by
  rcases mem_exec _ _ _ _ h with h1 | h1 | h1
  · simp at h1
  · rw [helloStmts_eq] at h1
    split_ifs at h1 <;> simp at h1 <;> exact h1.2.2
  · rw [helloStmts_eq] at h1
    split_ifs at h1 <;> simp at h1

/-- The clock is sound for `helloHandler` exactly when the reading of the first
`time.Since` is at least `start` plus the duration slept, and the reading of the
second is not below that of the first. -/
theorem clockSound_helloClock (r : Request) (env : Env) :
    clockSound none (helloClock r env) = true ↔
      env.start + max (workDuration env) 0 ≤ env.now1 ∧ env.now1 ≤ env.now2 := by
  rw [helloClock_eq]
  simp [clockSound]

/-- C8: with a monotonic clock on which a sleep of `d` advances the clock by at least
`d` (the readings the handler takes, in the order in which it reads and sleeps, are
those of such a clock), for every request and every draw of `rand.Intn(200)` every
value an execution of `helloHandler` observes into the duration histogram is at
least `0.05` seconds; an execution that returns observes exactly one value, the
seconds since `start` at the last reading. -/
theorem hello_duration_floor (r : Request) (env : Env) (h0 : 0 ≤ env.intn) (h1 : env.intn < 200)
    (hclock : clockSound none (helloClock r env) = true) :
    (∀ fault m p s, Event.histObserve m p s ∈ helloHandler r env fault → 5 / 100 ≤ s) ∧
    (Registry.run Registry.init (helloHandler r env none)).requestDuration
      = [((r.Method, r.Path), durationSeconds (timeSince env.start env.now2))] ∧
    5 / 100 ≤ durationSeconds (timeSince env.start env.now2) := by
  have hw := workDuration_eq env h0 h1
  obtain ⟨hc1, hc2⟩ := (clockSound_helloClock r env).1 hclock
  have hd : 50000000 ≤ timeSince env.start env.now2 := by
    unfold timeSince satInt64
    split_ifs <;> omega
  have hb : (5 : ℚ) / 100 ≤ durationSeconds (timeSince env.start env.now2) := by
    have := one_twentieth_le_durationSeconds _ hd
    linarith
  refine ⟨?_, ?_, hb⟩
  · intro fault m p s hs
    rw [histObserve_mem_helloHandler r env fault m p s hs]
    exact hb
  · cases hs : simulatedError env
    · rw [helloHandler_success r env hs]
      simp [Registry.run, Registry.step, Registry.init]
    · rw [helloHandler_failure r env hs]
      simp [Registry.run, Registry.step, Registry.init]

/-- C8, instance: the handler sleeps 57 ms, the clock reads 57.003 ms and 57.004 ms
after `start` at the two later readings, and the observation is at least `0.05`. -/
theorem hello_duration_floor_witness :
    clockSound none (helloClock bobRequest calmEnv) = true ∧
    (5 : ℚ) / 100 ≤ durationSeconds (timeSince calmEnv.start calmEnv.now2) :=
  have hclock : clockSound none (helloClock bobRequest calmEnv) = true :=
    (clockSound_helloClock bobRequest calmEnv).2 (by decide)
  ⟨hclock, (hello_duration_floor bobRequest calmEnv (by decide) (by decide) hclock).2.2⟩

/-! ## Interleavings -/

/-- A step of the scheduler moves one call out of the goroutines. -/
theorem stepAt_sum {M : Type} [AddCommMonoid M] (f : Event → M) (i : Nat)
    (ts ts' : List (List Event)) (e : Event) (h : stepAt i ts = some (e, ts')) :
    (ts.flatten.map f).sum = f e + (ts'.flatten.map f).sum := by
  induction ts generalizing i ts' with
  | nil => simp [stepAt] at h
  | cons t rest ih =>
    cases i with
    | zero =>
      cases t with
      | nil => simp [stepAt] at h
      | cons a t' =>
        simp only [stepAt, Option.some.injEq, Prod.mk.injEq] at h
        obtain ⟨rfl, rfl⟩ := h
        simp [add_assoc]
    | succ i =>
      simp only [stepAt] at h
      cases hs : stepAt i rest with
      | none => simp [hs] at h
      | some p =>
        obtain ⟨e', rest'⟩ := p
        simp only [hs, Option.some.injEq, Prod.mk.injEq] at h
        obtain ⟨rfl, rfl⟩ := h
        have := ih i rest' hs
        simp only [List.flatten_cons, List.map_append, List.sum_append, this]
        rw [add_left_comm]

/-- A schedule splits the calls of the goroutines into those made and those left. -/
theorem schedule_sum {M : Type} [AddCommMonoid M] (f : Event → M) (sched : List Nat)
    (ts : List (List Event)) :
    ((schedule sched ts).1.map f).sum + ((schedule sched ts).2.flatten.map f).sum
      = (ts.flatten.map f).sum := by
  induction sched generalizing ts with
  | nil => simp [schedule]
  | cons i sched ih =>
    simp only [schedule]
    cases hs : stepAt i ts with
    | none => simpa using ih ts
    | some p =>
      obtain ⟨e, ts'⟩ := p
      simp only [List.map_cons, List.sum_cons]
      rw [stepAt_sum f i ts ts' e hs, add_assoc, ih ts']

/-- A step of the scheduler leaves of each goroutine a suffix of what it had. -/
theorem stepAt_suffix (i : Nat) (ts ts' : List (List Event)) (e : Event)
    (h : stepAt i ts = some (e, ts')) : List.Forall₂ (fun rest whole => rest <:+ whole) ts' ts := by
  have hrefl : ∀ l : List (List Event), List.Forall₂ (fun rest whole => rest <:+ whole) l l := by
    intro l
    induction l with
    | nil => exact List.Forall₂.nil
    | cons a l ih => exact List.Forall₂.cons (List.suffix_refl a) ih
  induction ts generalizing i ts' with
  | nil => simp [stepAt] at h
  | cons t rest ih =>
    cases i with
    | zero =>
      cases t with
      | nil => simp [stepAt] at h
      | cons a t' =>
        simp only [stepAt, Option.some.injEq, Prod.mk.injEq] at h
        obtain ⟨rfl, rfl⟩ := h
        exact List.Forall₂.cons (List.suffix_cons a t') (hrefl rest)
    | succ i =>
      simp only [stepAt] at h
      cases hs : stepAt i rest with
      | none => simp [hs] at h
      | some p =>
        obtain ⟨e', rest'⟩ := p
        simp only [hs, Option.some.injEq, Prod.mk.injEq] at h
        obtain ⟨rfl, rfl⟩ := h
        exact List.Forall₂.cons (List.suffix_refl t) (ih i rest' hs)

/-- A schedule leaves of each goroutine a suffix of its calls. -/
theorem schedule_suffix (sched : List Nat) (ts : List (List Event)) :
    List.Forall₂ (fun rest whole => rest <:+ whole) (schedule sched ts).2 ts := by
  induction sched generalizing ts with
  | nil =>
    simp only [schedule]
    induction ts with
    | nil => exact List.Forall₂.nil
    | cons a l ih => exact List.Forall₂.cons (List.suffix_refl a) ih
  | cons i sched ih =>
    simp only [schedule]
    cases hs : stepAt i ts with
    | none => simpa using ih ts
    | some p =>
      obtain ⟨e, ts'⟩ := p
      have h1 := ih ts'
      have h2 := stepAt_suffix i ts ts' e hs
      simp only
      clear hs ih
      generalize (schedule sched ts').2 = fin at h1
      induction h1 generalizing ts with
      | nil =>
        cases h2
        exact List.Forall₂.nil
      | cons hab _ ih' =>
        cases h2 with
        | cons hbc h2' => exact List.Forall₂.cons (hab.trans hbc) (ih' _ h2')

/-! ## The in-flight gauge -/

/-- The gauge after a sequence of calls. -/
theorem run_inFlightRequests (g : Registry) (t : List Event) :
    (Registry.run g t).inFlightRequests = g.inFlightRequests + (t.map gaugeDelta).sum := by
  unfold Registry.run
  induction t generalizing g with
  | nil => simp
  | cons e t ih =>
    rw [List.foldl_cons, ih]
    cases e <;> simp [Registry.step, gaugeDelta] <;> ring

/-- An execution in which the gauge increment returned: the increment comes first,
the deferred decrement last, and no call in between touches the gauge. -/
theorem helloHandler_shape (r : Request) (env : Env) (fault : Option Nat) (h : fault ≠ some 0) :
    ∃ mid, helloHandler r env fault = Event.gaugeInc :: (mid ++ [Event.gaugeDec]) ∧
      ∀ e ∈ mid, gaugeDelta e = 0 := by
  obtain ⟨rest, hrest, hmem⟩ : ∃ rest, helloStmts r env
      = Stmt.call Event.gaugeInc :: Stmt.defer Event.gaugeDec :: rest ∧
      ∀ e, Stmt.call e ∈ rest ∨ Stmt.defer e ∈ rest → gaugeDelta e = 0 := by
    rw [helloStmts_eq]
    refine ⟨_, rfl, ?_⟩
    intro e he
    rcases he with he | he
    · split_ifs at he <;> simp at he <;> rcases he with he | he <;> try (subst he; rfl)
      all_goals (rcases he with rfl | rfl | rfl | rfl | rfl | rfl | rfl | rfl | rfl | rfl | rfl | rfl | rfl <;> rfl)
    · split_ifs at he <;> simp at he <;> subst he <;> rfl
  have key : ∀ f', ∀ e ∈ exec f' [] rest, gaugeDelta e = 0 := by
    intro f' e he
    rcases mem_exec _ _ _ _ he with h1 | h1 | h1
    · simp at h1
    · exact hmem e (Or.inl h1)
    · exact hmem e (Or.inr h1)
  unfold helloHandler
  rw [hrest]
  cases fault with
  | none =>
    refine ⟨exec none [] rest, ?_, key none⟩
    rw [exec, exec, ← exec_append_singleton]
    rfl
  | some k =>
    cases k with
    | zero => exact absurd rfl h
    | succ k =>
      refine ⟨exec (some k) [] rest, ?_, key (some k)⟩
      rw [exec, exec, ← exec_append_singleton]
      rfl

/-- An execution in which the gauge increment panics makes no call. -/
theorem helloHandler_fault_zero (r : Request) (env : Env) :
    helloHandler r env (some 0) = [] := by
  unfold helloHandler
  rw [helloStmts_eq]
  rfl

/-- An execution changes the gauge by zero in total. -/
theorem helloHandler_gauge_balanced (r : Request) (env : Env) (fault : Option Nat) :
    ((helloHandler r env fault).map gaugeDelta).sum = 0 := by
  by_cases h : fault = some 0
  · subst h
    rw [helloHandler_fault_zero]
    rfl
  · obtain ⟨mid, hmid, hz⟩ := helloHandler_shape r env fault h
    rw [hmid]
    have : (mid.map gaugeDelta).sum = 0 := by
      apply List.sum_eq_zero
      intro x hx
      obtain ⟨e, he, rfl⟩ := List.mem_map.1 hx
      exact hz e he
    simp [gaugeDelta, this]

/-- Sum of a measure over the goroutines. -/
theorem sum_flatten_map {M : Type} [AddCommMonoid M] (f : Event → M) (ts : List (List Event)) :
    (ts.flatten.map f).sum = (ts.map fun t => (t.map f).sum).sum := by
  induction ts with
  | nil => simp
  | cons t rest ih => simp only [List.flatten_cons, List.map_append, List.sum_append, ih,
      List.map_cons, List.sum_cons]

/-- When no execution is outstanding, what is left changes the gauge by zero. -/
theorem gauge_left_zero (calls : List (Request × Env × Option Nat)) (fin : List (List Event))
    (h : List.Forall₂ (fun rest whole => rest = whole ∨ rest = []) fin
      (calls.map fun c => helloHandler c.1 c.2.1 c.2.2)) :
    (fin.flatten.map gaugeDelta).sum = 0 := by
  induction calls generalizing fin with
  | nil =>
    cases h
    simp
  | cons c calls ih =>
    cases h with
    | cons hab hrest =>
      have h2 := ih _ hrest
      simp only [List.flatten_cons, List.map_append, List.sum_append, h2]
      rcases hab with h1 | h1
      · rw [h1, helloHandler_gauge_balanced]
        rfl
      · rw [h1]
        rfl

/-- What is left of an execution lowers the gauge by one in total when the execution
is outstanding, and leaves it otherwise. -/
theorem helloHandler_gauge_left (r : Request) (env : Env) (fault : Option Nat)
    (s : List Event) (hs : s <:+ helloHandler r env fault) :
    (s.map gaugeDelta).sum
      = -(((if s ≠ helloHandler r env fault ∧ s ≠ [] then 1 else 0 : Nat)) : Int) := by
  by_cases h : fault = some 0
  · subst h
    rw [helloHandler_fault_zero, List.suffix_nil] at hs
    subst hs
    simp
  · obtain ⟨mid, hmid, hz⟩ := helloHandler_shape r env fault h
    rw [hmid] at hs ⊢
    rcases List.suffix_cons_iff.1 hs with h1 | h1
    · have hbal := helloHandler_gauge_balanced r env fault
      rw [hmid] at hbal
      rw [h1, hbal]
      simp
    · have hne : s ≠ Event.gaugeInc :: (mid ++ [Event.gaugeDec]) := by
        intro he
        have := h1.length_le
        rw [he] at this
        simp at this
      rcases List.eq_nil_or_concat s with h2 | ⟨s', x, h2⟩
      · subst h2
        simp
      · subst h2
        obtain ⟨pre, hpre⟩ := h1
        rw [List.concat_eq_append, ← List.append_assoc] at hpre
        have hx : x = Event.gaugeDec := by
          have := List.append_inj_right' hpre rfl
          simpa using this
        have hmid' : pre ++ s' = mid := List.append_inj_left' hpre rfl
        have hsum : (s'.map gaugeDelta).sum = 0 := by
          apply List.sum_eq_zero
          intro y hy
          obtain ⟨e, he, rfl⟩ := List.mem_map.1 hy
          exact hz e (hmid' ▸ List.mem_append_right _ he)
        have hne' : s'.concat x ≠ Event.gaugeInc :: (mid ++ [Event.gaugeDec]) := hne
        rw [if_pos ⟨hne', by simp⟩]
        subst hx
        simp [hsum, gaugeDelta]

/-- What is left of interleaved executions lowers the gauge, in total, by the number
of executions outstanding. -/
theorem gauge_left_outstanding (calls : List (Request × Env × Option Nat))
    (fin : List (List Event))
    (h : List.Forall₂ (fun rest whole => rest <:+ whole) fin
      (calls.map fun c => helloHandler c.1 c.2.1 c.2.2)) :
    (fin.flatten.map gaugeDelta).sum
      = -((outstanding fin (calls.map fun c => helloHandler c.1 c.2.1 c.2.2) : Nat) : Int) := by
  induction calls generalizing fin with
  | nil =>
    cases h
    simp [outstanding]
  | cons c calls ih =>
    cases h with
    | cons hab hrest =>
      have h1 := helloHandler_gauge_left c.1 c.2.1 c.2.2 _ hab
      have h2 := ih _ hrest
      simp only [List.flatten_cons, List.map_append, List.sum_append, List.map_cons, outstanding,
        h1, h2]
      push_cast
      ring

/-- Between its first and its last call an execution holds the gauge one above where
it found it. -/
theorem helloHandler_gauge_held (r : Request) (env : Env) (fault : Option Nat)
    (h : fault ≠ some 0) (g : Registry) (k : Nat) (hk0 : 0 < k)
    (hk1 : k < (helloHandler r env fault).length) :
    (Registry.run g ((helloHandler r env fault).take k)).inFlightRequests
      = g.inFlightRequests + 1 := by
  obtain ⟨mid, hmid, hz⟩ := helloHandler_shape r env fault h
  rw [hmid] at hk1 ⊢
  obtain ⟨j, rfl⟩ : ∃ j, k = j + 1 := ⟨k - 1, by omega⟩
  have hj : j ≤ mid.length := by
    simp at hk1
    omega
  rw [run_inFlightRequests, List.take_succ_cons, List.take_append_of_le_length hj]
  have hsum : ((mid.take j).map gaugeDelta).sum = 0 := by
    apply List.sum_eq_zero
    intro y hy
    obtain ⟨e, he, rfl⟩ := List.mem_map.1 hy
    exact hz e (List.mem_of_mem_take he)
  rw [List.map_cons, List.sum_cons, hsum]
  rfl

/-- C5: an execution of `helloHandler` in which the gauge increment has returned
increments the in-flight gauge exactly once, as its first call, and decrements it
exactly once, as its last call, whether it returns or panics: from its first call
until its last the gauge stands one above where the execution found it, and after
the last it is back there.  Under every interleaving of any number of executions,
from a gauge at 0, the gauge equals the number of executions outstanding (those that
have made some of their calls and not all); so it is never negative, and it is 0
whenever no execution is outstanding. -/
theorem hello_in_flight_gauge (r : Request) (env : Env) (fault : Option Nat)
    (calls : List (Request × Env × Option Nat)) (sched : List Nat) :
    (fault ≠ some 0 →
      ∃ mid, helloHandler r env fault = Event.gaugeInc :: (mid ++ [Event.gaugeDec]) ∧
        Event.gaugeInc ∉ mid ∧ Event.gaugeDec ∉ mid) ∧
    (fault ≠ some 0 → ∀ (g : Registry) (k : Nat), 0 < k → k < (helloHandler r env fault).length →
      (Registry.run g ((helloHandler r env fault).take k)).inFlightRequests
        = g.inFlightRequests + 1) ∧
    (∀ g : Registry,
      (Registry.run g (helloHandler r env fault)).inFlightRequests = g.inFlightRequests) ∧
    (Registry.run Registry.init
      (schedule sched (calls.map fun c => helloHandler c.1 c.2.1 c.2.2)).1).inFlightRequests
      = ((outstanding (schedule sched (calls.map fun c => helloHandler c.1 c.2.1 c.2.2)).2
          (calls.map fun c => helloHandler c.1 c.2.1 c.2.2) : Nat) : Int) ∧
    0 ≤ (Registry.run Registry.init
      (schedule sched (calls.map fun c => helloHandler c.1 c.2.1 c.2.2)).1).inFlightRequests ∧
    (List.Forall₂ (fun rest whole => rest = whole ∨ rest = [])
        (schedule sched (calls.map fun c => helloHandler c.1 c.2.1 c.2.2)).2
        (calls.map fun c => helloHandler c.1 c.2.1 c.2.2) →
      (Registry.run Registry.init
        (schedule sched (calls.map fun c => helloHandler c.1 c.2.1 c.2.2)).1).inFlightRequests
        = 0) := by
  have hinit : ((calls.map fun c => helloHandler c.1 c.2.1 c.2.2).flatten.map gaugeDelta).sum
      = 0 := gauge_left_zero calls _ (by
        generalize (calls.map fun c => helloHandler c.1 c.2.1 c.2.2) = l
        induction l with
        | nil => exact List.Forall₂.nil
        | cons a l ih => exact List.Forall₂.cons (Or.inl rfl) ih)
  have hsplit := schedule_sum gaugeDelta sched (calls.map fun c => helloHandler c.1 c.2.1 c.2.2)
  rw [hinit] at hsplit
  have hout := gauge_left_outstanding calls _ (schedule_suffix sched _)
  refine ⟨?_, ?_, ?_, ?_, ?_, ?_⟩
  · intro h
    obtain ⟨mid, hmid, hz⟩ := helloHandler_shape r env fault h
    refine ⟨mid, hmid, ?_, ?_⟩
    · intro hm
      exact absurd (hz _ hm) (by decide)
    · intro hm
      exact absurd (hz _ hm) (by decide)
  · intro h g k hk0 hk1
    exact helloHandler_gauge_held r env fault h g k hk0 hk1
  · intro g
    rw [run_inFlightRequests, helloHandler_gauge_balanced, add_zero]
  · rw [run_inFlightRequests]
    simp only [Registry.init]
    omega
  · rw [run_inFlightRequests]
    simp only [Registry.init]
    omega
  · intro hdone
    rw [run_inFlightRequests]
    have hrem := gauge_left_zero calls _ hdone
    simp only [Registry.init]
    omega

/-- The calls of the first of the two example executions. -/
theorem helloHandler_bob_calm_length : (helloHandler bobRequest calmEnv none).length = 15 := by
  rw [helloHandler_success _ _ simulatedError_calmEnv]
  rfl

/-- Under the alternating schedule both example executions make all their calls. -/
theorem alternating_done :
    (schedule alternating (twoCalls.map fun c => helloHandler c.1 c.2.1 c.2.2)).2 = [[], []] := by
  simp only [twoCalls, List.map_cons, List.map_nil,
    helloHandler_success _ _ simulatedError_calmEnv,
    helloHandler_failure _ _ simulatedError_faultyEnv]
  rfl

/-- After three steps of the alternating schedule both example executions are
outstanding. -/
theorem alternating_three_outstanding :
    outstanding (schedule [0, 1, 0] (twoCalls.map fun c => helloHandler c.1 c.2.1 c.2.2)).2
      (twoCalls.map fun c => helloHandler c.1 c.2.1 c.2.2) = 2 := by
  simp only [twoCalls, List.map_cons, List.map_nil,
    helloHandler_success _ _ simulatedError_calmEnv,
    helloHandler_failure _ _ simulatedError_faultyEnv]
  simp [schedule, stepAt, outstanding]

/-- C5, instance: an execution that panics in its fourth call still increments first
and decrements last; five calls into an execution the gauge, started at 0, reads 1;
with two executions interleaved, the gauge reads 2 after three steps, and 0 when
both have returned. -/
theorem hello_in_flight_gauge_witness :
    (some 3 : Option Nat) ≠ some 0 ∧
    (∃ mid, helloHandler bobRequest calmEnv (some 3)
        = Event.gaugeInc :: (mid ++ [Event.gaugeDec]) ∧
      Event.gaugeInc ∉ mid ∧ Event.gaugeDec ∉ mid) ∧
    (Registry.run Registry.init ((helloHandler bobRequest calmEnv none).take 5)).inFlightRequests
      = 1 ∧
    (Registry.run Registry.init
      (schedule [0, 1, 0] (twoCalls.map fun c => helloHandler c.1 c.2.1 c.2.2)).1).inFlightRequests
      = 2 ∧
    List.Forall₂ (fun rest whole => rest = whole ∨ rest = [])
      (schedule alternating (twoCalls.map fun c => helloHandler c.1 c.2.1 c.2.2)).2
      (twoCalls.map fun c => helloHandler c.1 c.2.1 c.2.2) ∧
    (Registry.run Registry.init
      (schedule alternating
        (twoCalls.map fun c => helloHandler c.1 c.2.1 c.2.2)).1).inFlightRequests = 0 :=
  have hdone : List.Forall₂ (fun rest whole => rest = whole ∨ rest = [])
      (schedule alternating (twoCalls.map fun c => helloHandler c.1 c.2.1 c.2.2)).2
      (twoCalls.map fun c => helloHandler c.1 c.2.1 c.2.2) := by
    rw [alternating_done]
    exact List.Forall₂.cons (Or.inr rfl) (List.Forall₂.cons (Or.inr rfl) List.Forall₂.nil)
  ⟨by decide,
    (hello_in_flight_gauge bobRequest calmEnv (some 3) twoCalls alternating).1 (by decide),
    ((hello_in_flight_gauge bobRequest calmEnv none twoCalls alternating).2.1 (by decide)
      Registry.init 5 (by decide) (by rw [helloHandler_bob_calm_length]; decide)).trans rfl,
    ((hello_in_flight_gauge bobRequest calmEnv none twoCalls [0, 1, 0]).2.2.2.1).trans
      (by rw [alternating_three_outstanding]; rfl),
    hdone,
    (hello_in_flight_gauge bobRequest calmEnv none twoCalls alternating).2.2.2.2.2 hdone⟩

/-! ## The request counter -/

/-- Incrementing a series adds one to that series and leaves the others. -/
theorem counterValue_counterVecInc (cs : List (CounterLabels × Nat)) (l l' : CounterLabels) :
    counterValue (counterVecInc cs l) l' = counterValue cs l' + if l' = l then 1 else 0 := by
  induction cs with
  | nil =>
    by_cases h : l = l'
    · subst h
      simp [counterVecInc, counterValue]
    · have h' : ¬ l' = l := fun e => h e.symm
      simp [counterVecInc, counterValue, h, h']
  | cons a cs ih =>
    obtain ⟨k, v⟩ := a
    by_cases hk : k = l
    · subst hk
      by_cases h : k = l'
      · subst h
        simp [counterVecInc, counterValue]
      · have h' : ¬ l' = k := fun e => h e.symm
        simp [counterVecInc, counterValue, h, h']
    · by_cases h : k = l'
      · subst h
        have h' : ¬ k = l := hk
        simp [counterVecInc, counterValue, hk]
      · simp [counterVecInc, counterValue, hk, h, ih]

/-- Incrementing a series adds one to the sum over the statuses of its method and path. -/
theorem counterSum_counterVecInc (cs : List (CounterLabels × Nat)) (l : CounterLabels)
    (m p : String) :
    counterSum (counterVecInc cs l) m p
      = counterSum cs m p + if l.1 = m ∧ l.2.1 = p then 1 else 0 := by
  induction cs with
  | nil =>
    by_cases h : l.1 = m ∧ l.2.1 = p
    · simp [counterVecInc, counterSum, h]
    · simp [counterVecInc, counterSum, h]
  | cons a cs ih =>
    obtain ⟨k, v⟩ := a
    unfold counterSum at ih ⊢
    by_cases hk : k = l
    · subst hk
      by_cases h : k.1 = m ∧ k.2.1 = p
      · simp [counterVecInc, h, List.filter_cons]
        omega
      · simp [counterVecInc, h, List.filter_cons]
    · by_cases h : k.1 = m ∧ k.2.1 = p
      · simp only [counterVecInc, hk, if_false, List.filter_cons, h, and_self, decide_True,
          if_true, List.map_cons, List.sum_cons, ih]
        omega
      · simp only [Bool.decide_and] at ih
        simp [counterVecInc, hk, List.filter_cons, h, ih]

/-- The sum over the statuses of a method and path after a sequence of calls. -/
theorem run_counterSum (g : Registry) (t : List Event) (m p : String) :
    counterSum (Registry.run g t).requestsTotal m p
      = counterSum g.requestsTotal m p + (t.map (counterDelta m p)).sum := by
  unfold Registry.run
  induction t generalizing g with
  | nil => simp
  | cons e t ih =>
    rw [List.foldl_cons, ih]
    cases e <;> simp [Registry.step, counterDelta, counterSum_counterVecInc, add_assoc]

/-- An execution that returns makes one increment for its method and path. -/
theorem helloHandler_counterDelta (r : Request) (env : Env) :
    ((helloHandler r env none).map (counterDelta r.Method r.Path)).sum = 1 := by
  cases hs : simulatedError env
  · rw [helloHandler_success r env hs]
    simp [counterDelta]
  · rw [helloHandler_failure r env hs]
    simp [counterDelta]

/-- C4: an execution of `helloHandler` that returns adds exactly one to exactly one
series of the request counter, the series labelled with the request method, the
request path and the decimal string of the status code written to the response
(`200` or `500`).  Hence when `N` executions for `GET /hello`, interleaved in any
way, have all returned, the counter, started from zero, sums to exactly `N` over
the status label values of (`GET`, `/hello`). -/
theorem hello_request_counter (g : Registry) (r : Request) (env : Env) (l : CounterLabels)
    (calls : List (Request × Env)) (sched : List Nat) :
    counterValue (Registry.run g (helloHandler r env none)).requestsTotal l
      = counterValue g.requestsTotal l
        + (if l = (r.Method, r.Path, sprintfD (response (helloHandler r env none)).status)
            then 1 else 0) ∧
    (sprintfD (response (helloHandler r env none)).status = "200" ∨
      sprintfD (response (helloHandler r env none)).status = "500") ∧
    ((∀ c ∈ calls, c.1.Method = "GET" ∧ c.1.Path = "/hello") →
      (∀ rest ∈ (schedule sched (calls.map fun c => helloHandler c.1 c.2 none)).2, rest = []) →
      counterSum (Registry.run Registry.init
          (schedule sched (calls.map fun c => helloHandler c.1 c.2 none)).1).requestsTotal
        "GET" "/hello" = calls.length) := by
  refine ⟨?_, ?_, ?_⟩
  · cases hs : simulatedError env
    · rw [response_success r env hs, helloHandler_success r env hs]
      simp [Registry.run, Registry.step, counterValue_counterVecInc]
    · rw [response_failure r env hs, helloHandler_failure r env hs]
      simp [Registry.run, Registry.step, counterValue_counterVecInc]
  · cases hs : simulatedError env
    · rw [response_success r env hs]
      exact Or.inl rfl
    · rw [response_failure r env hs]
      exact Or.inr rfl
  · intro hget hdone
    rw [run_counterSum]
    have hsplit := schedule_sum (counterDelta "GET" "/hello") sched
      (calls.map fun c => helloHandler c.1 c.2 none)
    have hleft : (schedule sched (calls.map fun c => helloHandler c.1 c.2 none)).2.flatten
        = [] := by
      rw [List.flatten_eq_nil_iff]
      exact hdone
    have hall : ((calls.map fun c => helloHandler c.1 c.2 none).flatten.map
        (counterDelta "GET" "/hello")).sum = calls.length := by
      rw [sum_flatten_map]
      clear hsplit hleft hdone
      induction calls with
      | nil => simp
      | cons c calls ih =>
        have hc := hget c (List.mem_cons_self _ _)
        have h1 := helloHandler_counterDelta c.1 c.2
        rw [hc.1, hc.2] at h1
        have h2 := ih fun c' hc' => hget c' (List.mem_cons_of_mem _ hc')
        simp only [List.map_cons, List.sum_cons, List.length_cons, h1, h2]
        omega
    rw [hleft, hall] at hsplit
    simp only [List.map_nil, List.sum_nil, add_zero] at hsplit
    rw [hsplit]
    simp [Registry.init, counterSum]

/-- C4, instance: one execution for `GET /hello`, run to its end, leaves the sum at 1. -/
theorem hello_request_counter_witness :
    (∀ c ∈ [(plainRequest, calmEnv)], c.1.Method = "GET" ∧ c.1.Path = "/hello") ∧
    (∀ rest ∈ (schedule (List.replicate 15 0)
        ([(plainRequest, calmEnv)].map fun c => helloHandler c.1 c.2 none)).2, rest = []) ∧
    counterSum (Registry.run Registry.init
        (schedule (List.replicate 15 0)
          ([(plainRequest, calmEnv)].map fun c => helloHandler c.1 c.2 none)).1).requestsTotal
      "GET" "/hello" = 1 :=
  have h1 : ∀ c ∈ [(plainRequest, calmEnv)], c.1.Method = "GET" ∧ c.1.Path = "/hello" := by
    intro c hc
    rw [List.mem_singleton.1 hc]
    exact ⟨rfl, rfl⟩
  have h2 : ∀ rest ∈ (schedule (List.replicate 15 0)
      ([(plainRequest, calmEnv)].map fun c => helloHandler c.1 c.2 none)).2, rest = [] := by
    simp only [List.map_cons, List.map_nil, helloHandler_success _ _ simulatedError_calmEnv]
    simp [schedule, stepAt, List.replicate]
  ⟨h1, h2,
    (hello_request_counter Registry.init plainRequest calmEnv ("GET", "/hello", "200")
      [(plainRequest, calmEnv)] (List.replicate 15 0)).2.2 h1 h2⟩

end Helloworld
